import Mathlib

/-!
Shallow embedding of the sleep-session state machine and daily aggregation
pipeline of `simulate_arduino.py`.

Conventions of the embedding:
* Wall-clock instants (`time.time()`) and float quantities are modelled as `ℚ`.
* The Python globals (`sleep_active`, `sleep_paused`, `sleep_ended`,
  `sleep_start_time`, `sleep_accumulated`, `current_day`, `day_data`) together
  with the JSON files written under `static/data/` form one state `SysState`;
  the Summary Store is modelled as the append-only log `writes` of
  `(date key, record)` pairs, later writes for the same key shadowing earlier
  ones (the file system's overwrite semantics are recovered by `storeLookup`).
* A fallible store write is modelled by the boolean parameter `w` of
  `summarize_day`: `w = false` means `open`/`json.dump` raises, which the
  embedding surfaces as `Except.error`, mirroring a propagating Python
  exception.
* Each HTTP handler / loop body becomes a function from the old state (plus
  the instant `now` and calendar date `today` at which it runs) to the new
  state and its observable output.
-/

/-- One parsed reading from the sample source (the fields of the `data` dict
that the daily-summary code consumes). -/
structure Sample where
  peaks_in_20 : ℤ
  breath_rate : ℚ
  apneas : ℤ
  hypopneas : ℤ
  AHI : ℚ
deriving DecidableEq

/-- The `day_data` dictionary (the running day aggregate). -/
structure DayData where
  samples : List ℚ
  peaks : List ℤ
  apnea_events : ℤ
  hypopnea_events : ℤ
  longest_pause : ℚ
  breaths_in_20 : ℤ
  AHI : ℚ
  total_sleep_secs : ℚ
deriving DecidableEq

/-- The `metrics` JSON record written by `summarize_day`. -/
structure Record where
  date : String
  avg_breath_rate : ℚ
  min_breath_rate : ℚ
  max_breath_rate : ℚ
  avg_peaks_in_20 : ℚ
  apnea_events : ℤ
  hypopnea_events : ℤ
  AHI : ℚ
  longest_pause : ℚ
  total_sleep_secs : ℚ
deriving DecidableEq

/-- The JSON body returned by the `end_sleep` handler. -/
structure EndAck where
  status : String
  total_sleep_seconds : ℚ
  total_sleep_hours : ℚ
deriving DecidableEq

/-- The shared mutable globals of `simulate_arduino.py`, plus the summary
store contents (as an ordered write log). -/
structure SysState where
  sleep_active : Bool
  sleep_paused : Bool
  sleep_ended : Bool
  sleep_start_time : Option ℚ
  sleep_accumulated : ℚ
  current_day : Option String
  day_data : DayData
  writes : List (String × Record)
deriving DecidableEq

/-- The module-level initializer of `day_data` (also rebuilt inside
`end_sleep`). -/
def initDayData : DayData :=
  { samples := []
    peaks := []
    apnea_events := 0
    hypopnea_events := 0
    longest_pause := 0
    breaths_in_20 := 0
    AHI := 0
    total_sleep_secs := 0 }

/-- Process start: all flags `False`, `sleep_start_time = None`,
`sleep_accumulated = 0.0`, `current_day = None`, empty aggregate, empty
store. -/
def initState : SysState :=
  { sleep_active := false
    sleep_paused := false
    sleep_ended := false
    sleep_start_time := none
    sleep_accumulated := 0
    current_day := none
    day_data := initDayData
    writes := [] }

/-- The date key used for the summary file path
`os.path.join(DATA_DIR, f"{current_day}.json")`; a `None` day stringifies to
`"None"` in the f-string. -/
def dayKey : Option String → String
  | none => "None"
  | some d => d

/-- `get_sleep_accumulated` (lines 54-59): the `elapsed()` query. -/
def get_sleep_accumulated (st : SysState) (now : ℚ) : ℚ :=
  if st.sleep_paused || st.sleep_ended || st.sleep_start_time.isNone then
    st.sleep_accumulated
  else
    st.sleep_accumulated + (now - st.sleep_start_time.getD 0)

/-- The sample-loop gate condition (lines 73, 133):
`not (not sleep_active or sleep_paused or sleep_ended)`, i.e. the session
state the spec calls Active. -/
def isActive (st : SysState) : Bool :=
  st.sleep_active && !st.sleep_paused && !st.sleep_ended

/-- `statistics.mean` on a nonempty list (callers guard against `[]`). -/
def qmean (l : List ℚ) : ℚ :=
  l.sum / l.length

/-- Python `min` on a nonempty list (callers guard against `[]`). -/
def qmin : List ℚ → ℚ
  | [] => 0
  | a :: r => r.foldl min a

/-- Python `max` on a nonempty list (callers guard against `[]`). -/
def qmax : List ℚ → ℚ
  | [] => 0
  | a :: r => r.foldl max a

/-- Python `round` to an integer: round half to even (banker's rounding). -/
def pyRoundQ (q : ℚ) : ℤ :=
  let n := ⌊q⌋
  let f := q - n
  if f < 1 / 2 then n
  else if 1 / 2 < f then n + 1
  else if Even n then n else n + 1

/-- Python `round(x, 2)`. -/
def pyRound2 (q : ℚ) : ℚ :=
  (pyRoundQ (q * 100) : ℚ) / 100

/-- The `metrics` dict built by `summarize_day` (lines 323-334) from the
current aggregate, given that `day_data["samples"]` is nonempty. -/
def mkRecord (st : SysState) : Record :=
  { date := dayKey st.current_day
    avg_breath_rate := pyRound2 (qmean st.day_data.samples)
    min_breath_rate := pyRound2 (qmin st.day_data.samples)
    max_breath_rate := pyRound2 (qmax st.day_data.samples)
    avg_peaks_in_20 := pyRound2 (qmean (st.day_data.peaks.map (fun z => (z : ℚ))))
    apnea_events := st.day_data.apnea_events
    hypopnea_events := st.day_data.hypopnea_events
    AHI := st.day_data.AHI
    longest_pause := st.day_data.longest_pause
    total_sleep_secs := st.day_data.total_sleep_secs }

/-- `summarize_day` (lines 315-338): no-op on an empty sample list, otherwise
computes the record and writes it under the current date key. `w = false`
models the file write raising, which propagates out of `summarize_day`. -/
def summarize_day (w : Bool) (st : SysState) : Except String SysState :=
  if st.day_data.samples = [] then
    Except.ok st
  else if w then
    Except.ok { st with writes := st.writes ++ [(dayKey st.current_day, mkRecord st)] }
  else
    Except.error "write failure"

/-- The daily-data reset inlined in `end_sleep` (lines 292-303): refresh the
date stamp and rebuild `day_data` empty. -/
def day_reset (today : String) (st : SysState) : SysState :=
  { st with current_day := some today, day_data := initDayData }

/-- `start_sleep` handler (lines 239-254). -/
def start_sleep (now : ℚ) (today : String) (st : SysState) : SysState :=
  { st with
    current_day := some today
    sleep_active := true
    sleep_paused := false
    sleep_ended := false
    sleep_start_time := some now
    sleep_accumulated := 0 }

/-- `pause_sleep` handler (lines 256-265). -/
def pause_sleep (now : ℚ) (st : SysState) : SysState :=
  if !st.sleep_paused && st.sleep_start_time.isSome then
    { st with
      sleep_accumulated := st.sleep_accumulated + (now - st.sleep_start_time.getD 0)
      sleep_start_time := none
      sleep_paused := true }
  else
    { st with sleep_paused := true }

/-- `resume_sleep` handler (lines 268-275). -/
def resume_sleep (now : ℚ) (st : SysState) : SysState :=
  { st with sleep_paused := false, sleep_start_time := some now }

/-- The timer finalization at the top of `end_sleep` (lines 283-286):
`if sleep_start_time is not None and not sleep_paused: accumulated += now -
start; start = None`. -/
def finalize_timer (now : ℚ) (st : SysState) : SysState :=
  if st.sleep_start_time.isSome && !st.sleep_paused then
    { st with
      sleep_accumulated := st.sleep_accumulated + (now - st.sleep_start_time.getD 0)
      sleep_start_time := none }
  else st

/-- The globals right before `summarize_day()` is called inside `end_sleep`
(after finalizing the timer and storing the total into
`day_data['total_sleep_secs']`, lines 283-289). -/
def mid_state (now : ℚ) (st : SysState) : SysState :=
  let st1 := finalize_timer now st
  { st1 with day_data := { st1.day_data with total_sleep_secs := st1.sleep_accumulated } }

/-- `end_sleep` handler (lines 277-313). Returns the state the globals end up
in together with either the JSON acknowledgment or the propagating exception
from the `summarize_day` write; on an exception the mutations performed so far
persist and the rest of the handler (day reset, flag flip, acknowledgment)
does not run. The acknowledgment's totals are `sleep_accumulated` after
finalization, i.e. `(mid_state now st).sleep_accumulated`. -/
def end_sleep (w : Bool) (now : ℚ) (today : String) (st : SysState) :
    SysState × Except String EndAck :=
  let st2 := mid_state now st
  match summarize_day w st2 with
  | Except.error e => (st2, Except.error e)
  | Except.ok st3 =>
    let st4 :=
      { day_reset today st3 with
        sleep_active := false
        sleep_paused := false
        sleep_ended := true }
    (st4, Except.ok
      { status := "sleep ended"
        total_sleep_seconds := st2.sleep_accumulated
        total_sleep_hours := st2.sleep_accumulated / 3600 })

/-- One accepted-or-dropped cycle of the sample loops (`fake_arduino_data`
lines 70-116 / `read_from_serial` lines 130-179, after parsing): the gate
check, then the aggregate update and the emission of the populated sample to
the broadcaster. The loop body never reads the calendar date; `today` records
the wall-clock date of the cycle and is deliberately unused, exactly as the
source ignores it. -/
def process_sample (st : SysState) (now : ℚ) (today : String) (s : Sample) :
    SysState × Option (Sample × ℚ) :=
  if !st.sleep_active || st.sleep_paused || st.sleep_ended then
    (st, none)
  else
    let total := get_sleep_accumulated st now
    let d := st.day_data
    let d' : DayData :=
      { samples := d.samples ++ [s.breath_rate]
        peaks := d.peaks ++ [s.peaks_in_20]
        apnea_events := s.apneas
        hypopnea_events := s.hypopneas
        longest_pause := d.longest_pause
        breaths_in_20 := s.peaks_in_20
        AHI := s.AHI
        total_sleep_secs := total }
    ({ st with day_data := d' }, some (s, total))

/-- One iteration of `hourly_saver` (lines 340-347): `summarize_day` inside
`try/except`, so a write failure is caught and the state is unchanged. The
timer thread never reads the calendar date; `today` is deliberately unused. -/
def hourly_step (w : Bool) (today : String) (st : SysState) : SysState :=
  match summarize_day w st with
  | Except.ok st' => st'
  | Except.error _ => st

/-- Reading the summary store: the latest write for a date key wins,
mirroring file overwrite. -/
def storeLookup (wr : List (String × Record)) (k : String) : Option Record :=
  (wr.reverse.find? (fun p => p.1 = k)).map (fun p => p.2)

/-- Events of the whole system: each control handler, an incoming sample
cycle, or an hourly checkpoint, tagged with the instant and calendar date at
which it runs and (where a store write can happen) whether the write
succeeds. -/
inductive Ev where
  | startEv (now : ℚ) (today : String)
  | pauseEv (now : ℚ)
  | resumeEv (now : ℚ)
  | endEv (now : ℚ) (today : String) (w : Bool)
  | sampleEv (now : ℚ) (today : String) (s : Sample)
  | hourlyEv (today : String) (w : Bool)

/-- State transition of one event. -/
def step (st : SysState) : Ev → SysState
  | Ev.startEv now today => start_sleep now today st
  | Ev.pauseEv now => pause_sleep now st
  | Ev.resumeEv now => resume_sleep now st
  | Ev.endEv now today w => (end_sleep w now today st).1
  | Ev.sampleEv now today s => (process_sample st now today s).1
  | Ev.hourlyEv today w => hourly_step w today st

/-- Run a finite event sequence from a state. -/
def run (st : SysState) (evs : List Ev) : SysState :=
  evs.foldl step st

/-- Timed pause/resume events (the mid-session control calls of claim C1's
traces). -/
inductive TEv where
  | tpause
  | tresume
deriving DecidableEq

/-- Apply one timed pause/resume call. -/
def applyT (st : SysState) : TEv × ℚ → SysState
  | (TEv.tpause, t) => pause_sleep t st
  | (TEv.tresume, t) => resume_sleep t st

/-- Run a list of timed pause/resume calls. -/
def runT (st : SysState) (mid : List (TEv × ℚ)) : SysState :=
  mid.foldl applyT st

/-- Total wall-clock duration spent with the session Active, from instant
`tprev` through the events of `mid` up to the final instant `tn`. -/
def activeDurTo (st : SysState) (tprev : ℚ) (mid : List (TEv × ℚ)) (tn : ℚ) : ℚ :=
  match mid with
  | [] => if isActive st then tn - tprev else 0
  | (e, t) :: rest =>
    (if isActive st then t - tprev else 0) + activeDurTo (applyT st (e, t)) t rest tn

/-- The event instants are nondecreasing from `tprev` through `mid` to
`tn`. -/
def timesMonoTo (tprev : ℚ) (mid : List (TEv × ℚ)) (tn : ℚ) : Bool :=
  match mid with
  | [] => decide (tprev ≤ tn)
  | (_, t) :: rest => decide (tprev ≤ t) && timesMonoTo t rest tn

/-- Every resume call in the trace is issued while the session is Paused. -/
def resumesOnlyWhenPaused (st : SysState) : List (TEv × ℚ) → Bool
  | [] => true
  | (e, t) :: rest =>
    (e != TEv.tresume || st.sleep_paused) && resumesOnlyWhenPaused (applyT st (e, t)) rest

/-- A concrete sample with breath rate 10. -/
def sampleA : Sample := { peaks_in_20 := 5, breath_rate := 10, apneas := 1, hypopneas := 1, AHI := 5 }

/-- A concrete sample with breath rate 12. -/
def sampleB : Sample := { peaks_in_20 := 6, breath_rate := 12, apneas := 1, hypopneas := 1, AHI := 5 }

/-- A concrete sample with breath rate 14. -/
def sampleC : Sample := { peaks_in_20 := 7, breath_rate := 14, apneas := 1, hypopneas := 1, AHI := 5 }

/-- The state reached by a bare `resume_sleep` call at t = 0 from process
start (no `start_sleep` ever issued). -/
def idleResumedState : SysState := run initState [Ev.resumeEv 0]

/-- The state after `start_sleep` at t = 0 followed by one accepted sample at
t = 5. -/
def activeSampledState : SysState :=
  run initState [Ev.startEv 0 "D", Ev.sampleEv 5 "D" sampleA]

/-- The state after a session started at t = 0 and ended at t = 10, followed
by a stray `resume_sleep` at t = 20 (state Ended). -/
def endedResumedState : SysState :=
  run initState [Ev.startEv 0 "D", Ev.endEv 10 "D" true, Ev.resumeEv 20]

/-- A session spanning a midnight: started on 2026-10-11 at t = 0 with one
sample at t = 5, then a second sample that arrives at t = 90000, after the
calendar date has rolled over to 2026-10-12. -/
def rolloverState : SysState :=
  run initState [Ev.startEv 0 "2026-10-11", Ev.sampleEv 5 "2026-10-11" sampleA,
    Ev.sampleEv 90000 "2026-10-12" sampleB]

/-- The concrete scenario of §8 of the spec up to (not including) the end
call: start at t = 0, three accepted samples with breath rates 10, 12, 14,
pause at t = 60. -/
def scenarioPreEnd : SysState :=
  run initState [Ev.startEv 0 "2026-01-02", Ev.sampleEv 10 "2026-01-02" sampleA,
    Ev.sampleEv 20 "2026-01-02" sampleB, Ev.sampleEv 30 "2026-01-02" sampleC,
    Ev.pauseEv 60]

/-- The concrete scenario of §8 of the spec: start at t = 0, three accepted
samples with breath rates 10, 12, 14, pause at t = 60, end at t = 60. -/
def scenarioState : SysState :=
  run initState [Ev.startEv 0 "2026-01-02", Ev.sampleEv 10 "2026-01-02" sampleA,
    Ev.sampleEv 20 "2026-01-02" sampleB, Ev.sampleEv 30 "2026-01-02" sampleC,
    Ev.pauseEv 60, Ev.endEv 60 "2026-01-02" true]

/-! ## Helper lemmas -/

/-- With a succeeding store, `summarize_day` never raises. -/
theorem summarize_true_isOk (u : SysState) : ∃ u', summarize_day true u = Except.ok u' := by
  unfold summarize_day
  by_cases h : u.day_data.samples = [] <;> simp [h]

/-- Case analysis of a successful `summarize_day`: either the sample list was
empty and nothing happened, or the record for the current date key was
appended to the store. -/
theorem summarize_cases (w : Bool) (st st' : SysState)
    (h : summarize_day w st = Except.ok st') :
    (st.day_data.samples = [] ∧ st' = st) ∨
    (st.day_data.samples ≠ [] ∧ w = true ∧
      st' = { st with writes := st.writes ++ [(dayKey st.current_day, mkRecord st)] }) := by
  unfold summarize_day at h
  by_cases hs : st.day_data.samples = []
  · left
    simp only [hs, if_pos, Except.ok.injEq] at h
    simp [hs, h.symm]
  · right
    cases w
    · simp [hs] at h
    · simp only [hs, ite_false, ite_true, if_neg, if_pos, Except.ok.injEq] at h
      exact ⟨hs, rfl, h.symm⟩

/-- The latest write for a key is what a reader of the store sees. -/
theorem storeLookup_append_last (wr : List (String × Record)) (k : String) (r : Record) :
    storeLookup (wr ++ [(k, r)]) k = some r := by
  simp [storeLookup, List.reverse_append]

/-- `finalize_timer` touches only the timer fields. -/
theorem finalize_timer_frame (now : ℚ) (st : SysState) :
    (finalize_timer now st).day_data = st.day_data ∧
    (finalize_timer now st).writes = st.writes ∧
    (finalize_timer now st).current_day = st.current_day ∧
    (finalize_timer now st).sleep_paused = st.sleep_paused ∧
    (finalize_timer now st).sleep_ended = st.sleep_ended := by
  unfold finalize_timer
  split <;> exact ⟨rfl, rfl, rfl, rfl, rfl⟩

/-- `mid_state` keeps the store, date stamp and sample sequences, and records
the finalized accumulated total into the aggregate. -/
theorem mid_state_frame (now : ℚ) (st : SysState) :
    (mid_state now st).writes = st.writes ∧
    (mid_state now st).current_day = st.current_day ∧
    (mid_state now st).day_data.samples = st.day_data.samples ∧
    (mid_state now st).day_data.longest_pause = st.day_data.longest_pause ∧
    (mid_state now st).day_data.total_sleep_secs = (mid_state now st).sleep_accumulated := by
  unfold mid_state finalize_timer
  split <;> exact ⟨rfl, rfl, rfl, rfl, rfl⟩

/-- The result state of a `pause_sleep` call is always Paused. -/
theorem pause_sleep_paused (t : ℚ) (st : SysState) : (pause_sleep t st).sleep_paused = true := by
  unfold pause_sleep
  split <;> rfl

/-- Setting the paused flag of an already-paused state changes nothing. -/
theorem setPaused_eq_self (st : SysState) (h : st.sleep_paused = true) :
    ({ st with sleep_paused := true } : SysState) = st := by
  cases st
  simp_all

/-! ## C2: the elapsed() query -/

/-- C2 (counterexample): a bare `resume_sleep` from the initial Idle state is
reachable, leaves the state Idle (all three flags false), yet makes
`elapsed()` return more than `accumulated_seconds` — so `elapsed()` does not
return `accumulated_seconds` alone in every reachable Idle state, and a
resume issued while Idle does cause `elapsed()` to start increasing. -/
theorem idle_resume_elapsed_grows :
    idleResumedState.sleep_active = false ∧
    idleResumedState.sleep_paused = false ∧
    idleResumedState.sleep_ended = false ∧
    idleResumedState.sleep_accumulated = 0 ∧
    get_sleep_accumulated idleResumedState 5 ≠ idleResumedState.sleep_accumulated := by
  norm_num [idleResumedState, run, step, resume_sleep, initState, initDayData,
    get_sleep_accumulated]

/-- C2 (amended): `elapsed()` returns `accumulated_seconds` whenever the
session is paused or ended or no start instant is recorded, and
`accumulated_seconds + (now - start_time)` otherwise — the Active flag is
never consulted. Consequently a resume issued while Ended does not make
`elapsed()` increase (the ended flag still short-circuits it), but a resume
issued while Idle records a start instant and makes `elapsed()` grow as
`accumulated_seconds + (now - t)`. -/
theorem elapsed_characterization (st : SysState) (now t : ℚ) :
    (st.sleep_paused = true ∨ st.sleep_ended = true ∨ st.sleep_start_time = none →
      get_sleep_accumulated st now = st.sleep_accumulated) ∧
    (∀ s : ℚ, st.sleep_paused = false → st.sleep_ended = false →
      st.sleep_start_time = some s →
      get_sleep_accumulated st now = st.sleep_accumulated + (now - s)) ∧
    (st.sleep_ended = true →
      get_sleep_accumulated (resume_sleep t st) now = st.sleep_accumulated) ∧
    (st.sleep_active = false → st.sleep_paused = false → st.sleep_ended = false →
      get_sleep_accumulated (resume_sleep t st) now = st.sleep_accumulated + (now - t)) := by
  refine ⟨?_, ?_, ?_, ?_⟩
  · rintro (h | h | h) <;> simp [get_sleep_accumulated, h]
  · intro s h1 h2 h3
    simp [get_sleep_accumulated, h1, h2, h3]
  · intro h
    simp [get_sleep_accumulated, resume_sleep, h]
  · intro _ h2 h3
    simp [get_sleep_accumulated, resume_sleep, h2, h3]

/-- C2 (witness for the amended theorem): concrete instance — resuming the
never-started initial state at t = 0 makes `elapsed()` read 5 at now = 5. -/
theorem elapsed_characterization_witness :
    get_sleep_accumulated (resume_sleep 0 initState) 5 = initState.sleep_accumulated + (5 - 0) :=
  (elapsed_characterization initState 5 0).2.2.2 rfl rfl rfl

/-! ## C3: materialize on an empty aggregate -/

/-- C3 (confirmed): `summarize_day` on an empty breath-rate sequence is a
defined no-op (it returns the state unchanged, writing nothing, and raises
nothing), and `summarize_day` run immediately after the day reset is likewise
a no-op, so a materialize–reset–materialize chain produces no second
write. -/
theorem empty_materialize_noop (w w' : Bool) (st : SysState) (today : String) :
    (st.day_data.samples = [] → summarize_day w st = Except.ok st) ∧
    summarize_day w' (day_reset today st) = Except.ok (day_reset today st) := by
  constructor
  · intro h
    simp [summarize_day, h]
  · simp [summarize_day, day_reset, initDayData]

/-- C3 (witness): the initial state has an empty sample list and its
materialize is a no-op. -/
theorem empty_materialize_noop_witness :
    summarize_day true initState = Except.ok initState :=
  (empty_materialize_noop true true initState "D").1 rfl

/-! ## C5: the stream gate -/

/-- C5 (confirmed): a sample cycle emits to the broadcaster exactly when the
session state is Active; in any non-Active state (Idle, Paused, Ended) the
cycle returns the state completely unchanged — every field of the day
aggregate included — and emits nothing; when Active it appends the breath
rate and peak count to the day's sequences, overwrites the scalar fields with
the sample's values, stores the current elapsed total, and emits the sample
with that total. -/
theorem stream_gate (st : SysState) (now : ℚ) (today : String) (s : Sample) :
    ((process_sample st now today s).2.isSome = isActive st) ∧
    (isActive st = false → process_sample st now today s = (st, none)) ∧
    (isActive st = true →
      (process_sample st now today s).1.day_data.samples
          = st.day_data.samples ++ [s.breath_rate] ∧
      (process_sample st now today s).1.day_data.peaks
          = st.day_data.peaks ++ [s.peaks_in_20] ∧
      (process_sample st now today s).1.day_data.apnea_events = s.apneas ∧
      (process_sample st now today s).1.day_data.hypopnea_events = s.hypopneas ∧
      (process_sample st now today s).1.day_data.breaths_in_20 = s.peaks_in_20 ∧
      (process_sample st now today s).1.day_data.AHI = s.AHI ∧
      (process_sample st now today s).1.day_data.total_sleep_secs
          = get_sleep_accumulated st now ∧
      (process_sample st now today s).2 = some (s, get_sleep_accumulated st now)) := by
  obtain ⟨a, p, e, stt, acc, cd, dd, wr⟩ := st
  cases a <;> cases p <;> cases e <;>
    simp [process_sample, isActive]

/-- C5 (witness): in the initial Idle state a sample is dropped with no state
change and no emission. -/
theorem stream_gate_witness :
    process_sample initState 0 "D" sampleA = (initState, none) :=
  (stream_gate initState 0 "D" sampleA).2.1 rfl

/-! ## C9: idempotence of pause -/

/-- C9 (counterexample): pause is not a timer no-op in every non-Active
state. After start–end–resume the session is Ended (hence not Active) but
carries an open start instant, and a further `pause_sleep` at t = 30 adds
`30 - 20` to `accumulated_seconds`, changing the timer fields. -/
theorem pause_not_noop_when_ended :
    endedResumedState.sleep_active = false ∧
    endedResumedState.sleep_ended = true ∧
    endedResumedState.sleep_accumulated = 10 ∧
    (pause_sleep 30 endedResumedState).sleep_accumulated ≠ endedResumedState.sleep_accumulated := by
  norm_num [endedResumedState, run, step, start_sleep, end_sleep, mid_state, finalize_timer,
    summarize_day, day_reset, resume_sleep, pause_sleep, initState, initDayData,
    get_sleep_accumulated]

/-- C9 (amended): `pause_sleep` leaves the timer fields unchanged whenever the
session is already Paused or no start instant is recorded (its guard is those
two conditions, not the Active state); in particular a second consecutive
pause is a complete no-op — the state after it is identical, so
`accumulated_seconds` and the value of `elapsed()` are unchanged between the
two calls — and the state after any pause is Paused. -/
theorem pause_idempotent (st : SysState) (t t' now : ℚ) :
    (st.sleep_paused = true ∨ st.sleep_start_time = none →
      (pause_sleep t st).sleep_accumulated = st.sleep_accumulated ∧
      (pause_sleep t st).sleep_start_time = st.sleep_start_time ∧
      (pause_sleep t st).sleep_paused = true) ∧
    pause_sleep t' (pause_sleep t st) = pause_sleep t st ∧
    get_sleep_accumulated (pause_sleep t' (pause_sleep t st)) now
      = get_sleep_accumulated (pause_sleep t st) now := by
  have hidem : pause_sleep t' (pause_sleep t st) = pause_sleep t st := by
    have h1 := pause_sleep_paused t st
    set x := pause_sleep t st with hx
    unfold pause_sleep
    simp [h1, setPaused_eq_self x h1]
  refine ⟨?_, hidem, by rw [hidem]⟩
  rintro (h | h) <;> simp [pause_sleep, h]

/-- C9 (witness for the amended theorem): pausing the initial state (no start
instant) leaves the accumulated timer unchanged, and a second pause is a
no-op. -/
theorem pause_idempotent_witness :
    (pause_sleep 1 initState).sleep_accumulated = initState.sleep_accumulated ∧
    pause_sleep 2 (pause_sleep 1 initState) = pause_sleep 1 initState :=
  ⟨((pause_idempotent initState 1 2 3).1 (Or.inr rfl)).1,
    (pause_idempotent initState 1 2 3).2.1⟩

/-! ## C7: persistence failures and acknowledgments -/

/-- C7 (counterexample): a persistence failure during the Summary Store write
is not caught on the `end_sleep` path. With one accepted sample in the day
aggregate and a failing write, `end_sleep` propagates the exception instead
of returning its acknowledgment with total sleep seconds and hours. -/
theorem end_sleep_write_failure_raises :
    (end_sleep false 10 "D" activeSampledState).2 = Except.error "write failure" := by
  norm_num [activeSampledState, run, step, start_sleep, process_sample, end_sleep,
    mid_state, finalize_timer, summarize_day, initState, initDayData,
    get_sleep_accumulated, sampleA]

/-- C7 (amended): the hourly checkpoint task catches a write failure and
leaves the state unchanged, never crashing; `end_sleep` returns its
acknowledgment whenever the store write succeeds, and also — for any store —
whenever the aggregate is empty so that no write is attempted; but a failing
write during `end_sleep`'s materialize propagates out of the handler (see the
counterexample), so the always-acknowledge guarantee holds for every control
endpoint except that one path. -/
theorem ack_and_checkpoint_safety (st : SysState) (now : ℚ) (today : String) (w : Bool) :
    hourly_step false today st = st ∧
    (∃ a, (end_sleep true now today st).2 = Except.ok a) ∧
    (st.day_data.samples = [] → ∃ a, (end_sleep w now today st).2 = Except.ok a) := by
  refine ⟨?_, ?_, ?_⟩
  · by_cases h : st.day_data.samples = [] <;> simp [hourly_step, summarize_day, h]
  · cases hsum : summarize_day true (mid_state now st) with
    | error e =>
      obtain ⟨u, hu⟩ := summarize_true_isOk (mid_state now st)
      rw [hu] at hsum
      exact Except.noConfusion hsum
    | ok st3 =>
      exact ⟨{ status := "sleep ended",
               total_sleep_seconds := (mid_state now st).sleep_accumulated,
               total_sleep_hours := (mid_state now st).sleep_accumulated / 3600 },
        by simp [end_sleep, hsum]⟩
  · intro h
    have hs2 : (mid_state now st).day_data.samples = [] :=
      (mid_state_frame now st).2.2.1.trans h
    have hsum : summarize_day w (mid_state now st) = Except.ok (mid_state now st) := by
      simp [summarize_day, hs2]
    exact ⟨{ status := "sleep ended",
             total_sleep_seconds := (mid_state now st).sleep_accumulated,
             total_sleep_hours := (mid_state now st).sleep_accumulated / 3600 },
      by simp [end_sleep, hsum]⟩

/-- C7 (witness for the amended theorem): ending from the initial (empty)
state with a failing store still returns an acknowledgment. -/
theorem ack_and_checkpoint_safety_witness :
    ∃ a, (end_sleep false 0 "D" initState).2 = Except.ok a :=
  (ack_and_checkpoint_safety initState 0 "D" false).2.2 rfl

/-! ## C8: day rollover -/

/-- C8 (counterexample): no rollover detection exists. After midnight (sample
arriving at t = 90000, calendar date 2026-10-12) the sample is still folded
into the aggregate opened on 2026-10-11 (the list grows to both rates), the
date stamp is unchanged, no reset happens, and an hourly materialize on the
new day writes under the previous day's date key. -/
theorem no_rollover_detection :
    rolloverState.day_data.samples = [10, 12] ∧
    rolloverState.current_day = some "2026-10-11" ∧
    ((hourly_step true "2026-10-12" rolloverState).writes.map Prod.fst) = ["2026-10-11"] := by
  have hsamp : rolloverState.day_data.samples = [10, 12] := by
    norm_num [rolloverState, run, step, start_sleep, process_sample, initState,
      initDayData, get_sleep_accumulated, sampleA, sampleB]
  have hday : rolloverState.current_day = some "2026-10-11" := by
    norm_num [rolloverState, run, step, start_sleep, process_sample, initState,
      initDayData, get_sleep_accumulated, sampleA, sampleB]
  have hwr : rolloverState.writes = [] := by
    norm_num [rolloverState, run, step, start_sleep, process_sample, initState,
      initDayData, get_sleep_accumulated, sampleA, sampleB]
  have hne : rolloverState.day_data.samples ≠ [] := by
    rw [hsamp]
    exact List.cons_ne_nil 10 [12]
  refine ⟨hsamp, hday, ?_⟩
  simp [hourly_step, summarize_day, hne, hwr, dayKey, hday]

/-- C8 (amended): neither accept nor materialize performs any day-rollover
handling: a sample cycle never changes the date stamp and only ever appends
to the sample sequence (never resets it), and the hourly materialize leaves
both the date stamp and the whole aggregate unchanged; the date stamp is
refreshed only by `start_sleep` (and `end_sleep`), so samples observed after
midnight are folded into the aggregate and written under whatever date stamp
the last start/end recorded. -/
theorem accept_materialize_no_rollover (st : SysState) (now : ℚ) (today : String)
    (s : Sample) (w : Bool) :
    (process_sample st now today s).1.current_day = st.current_day ∧
    ((process_sample st now today s).1.day_data.samples = st.day_data.samples ∨
      (process_sample st now today s).1.day_data.samples
        = st.day_data.samples ++ [s.breath_rate]) ∧
    (hourly_step w today st).current_day = st.current_day ∧
    (hourly_step w today st).day_data = st.day_data ∧
    (start_sleep now today st).current_day = some today := by
  refine ⟨?_, ?_, ?_, ?_, rfl⟩
  · unfold process_sample
    split <;> rfl
  · unfold process_sample
    split
    · exact Or.inl rfl
    · exact Or.inr rfl
  · cases w <;> by_cases h : st.day_data.samples = [] <;>
      simp [hourly_step, summarize_day, h]
  · cases w <;> by_cases h : st.day_data.samples = [] <;>
      simp [hourly_step, summarize_day, h]

/-! ## C10: longest_pause is never updated -/

/-- Every pipeline operation preserves a zero `longest_pause` in the running
aggregate and in every stored record. -/
theorem step_preserves_lp (st : SysState) (e : Ev)
    (h1 : st.day_data.longest_pause = 0)
    (h2 : (st.writes.all fun p => decide (p.2.longest_pause = 0)) = true) :
    (step st e).day_data.longest_pause = 0 ∧
    ((step st e).writes.all fun p => decide (p.2.longest_pause = 0)) = true := by
  cases e with
  | startEv now today => exact ⟨h1, h2⟩
  | pauseEv now =>
    simp only [step]
    unfold pause_sleep
    split
    · exact ⟨h1, h2⟩
    · exact ⟨h1, h2⟩
  | resumeEv now => exact ⟨h1, h2⟩
  | sampleEv now today s =>
    simp only [step]
    unfold process_sample
    split
    · exact ⟨h1, h2⟩
    · exact ⟨h1, h2⟩
  | hourlyEv today w =>
    cases hsum : summarize_day w st with
    | error e2 =>
      simp only [step, hourly_step, hsum]
      exact ⟨h1, h2⟩
    | ok st' =>
      simp only [step, hourly_step, hsum]
      rcases summarize_cases w st st' hsum with ⟨_, rfl⟩ | ⟨_, _, rfl⟩
      · exact ⟨h1, h2⟩
      · refine ⟨h1, ?_⟩
        simp [List.all_append, h2, mkRecord, h1]
  | endEv now today w =>
    cases hsum : summarize_day w (mid_state now st) with
    | error e2 =>
      simp only [step, end_sleep, hsum]
      refine ⟨(mid_state_frame now st).2.2.2.1.trans h1, ?_⟩
      rw [(mid_state_frame now st).1]
      exact h2
    | ok st3 =>
      simp only [step, end_sleep, hsum]
      refine ⟨rfl, ?_⟩
      rcases summarize_cases w (mid_state now st) st3 hsum with ⟨_, rfl⟩ | ⟨_, _, rfl⟩
      · show ((mid_state now st).writes.all fun p => decide (p.2.longest_pause = 0)) = true
        rw [(mid_state_frame now st).1]
        exact h2
      · show (((mid_state now st).writes
            ++ [(dayKey (mid_state now st).current_day, mkRecord (mid_state now st))]).all
              fun p => decide (p.2.longest_pause = 0)) = true
        rw [(mid_state_frame now st).1]
        simp [List.all_append, h2, mkRecord, (mid_state_frame now st).2.2.2.1.trans h1]

/-- The zero-`longest_pause` invariant is preserved by arbitrary event
sequences. -/
theorem run_preserves_lp (evs : List Ev) :
    ∀ st : SysState, st.day_data.longest_pause = 0 →
      (st.writes.all fun p => decide (p.2.longest_pause = 0)) = true →
      ((run st evs).day_data.longest_pause = 0 ∧
        ((run st evs).writes.all fun p => decide (p.2.longest_pause = 0)) = true) := by
  induction evs with
  | nil =>
    intro st h1 h2
    exact ⟨h1, h2⟩
  | cons e rest ih =>
    intro st h1 h2
    have hstep := step_preserves_lp st e h1 h2
    exact ih (step st e) hstep.1 hstep.2

/-- C10 (confirmed): over every finite event sequence from process start —
any mix of control calls, accepted or dropped samples, and checkpoints — the
aggregate's `longest_pause` stays 0, and every record ever materialized into
the store carries `longest_pause = 0`: no operation of the pipeline updates
the longest-pause value after its initialization. -/
theorem longest_pause_always_zero (evs : List Ev) :
    (run initState evs).day_data.longest_pause = 0 ∧
    ((run initState evs).writes.all fun p => decide (p.2.longest_pause = 0)) = true :=
  run_preserves_lp evs initState rfl rfl

/-! ## C6: provenance of the total_sleep_secs field -/

/-- C6 (counterexample): the hourly checkpoint writes the aggregate's stored
total — the elapsed value captured at the last accepted sample — not
`elapsed()` at the time of the materialize call. With a sample accepted at
t = 5 and the session still Active, a checkpoint taken when `elapsed()` reads
100 writes a record whose `total_sleep_secs` is 5. -/
theorem hourly_record_total_stale :
    ((hourly_step true "D" activeSampledState).writes.map
        (fun p => p.2.total_sleep_secs)) = [5] ∧
    get_sleep_accumulated activeSampledState 100 = 100 ∧
    (5 : ℚ) ≠ 100 := by
  have h1 : activeSampledState.day_data.samples = [10] ∧
      activeSampledState.day_data.total_sleep_secs = 5 ∧
      activeSampledState.writes = [] ∧
      get_sleep_accumulated activeSampledState 100 = 100 := by
    norm_num [activeSampledState, run, step, start_sleep, process_sample, initState,
      initDayData, get_sleep_accumulated, sampleA]
  obtain ⟨hs, ht, hw, hg⟩ := h1
  have hne : activeSampledState.day_data.samples ≠ [] := by
    rw [hs]
    exact List.cons_ne_nil 10 []
  refine ⟨?_, hg, by norm_num⟩
  simp [hourly_step, summarize_day, hne, hw, mkRecord, ht]

/-- C6 (amended): every record produced by `summarize_day` carries the
aggregate's stored `total_sleep_secs` (the last value written there by an
accepted sample or by `end_sleep`) and is keyed — in its `date` field and in
the store — by the controller's current date stamp, with the new write
shadowing any earlier record for that key; on the session-end path the stored
total is the finalized `accumulated` value, so there the record's total does
equal `elapsed()` at the time of the call (the acknowledgment's
`total_sleep_seconds`); on the hourly path it can be stale, as the
counterexample shows. -/
theorem materialize_record_provenance (w : Bool) (st : SysState) (now : ℚ) (today : String) :
    (∀ st', summarize_day w st = Except.ok st' → st.day_data.samples ≠ [] →
      st'.writes = st.writes ++ [(dayKey st.current_day, mkRecord st)] ∧
      (mkRecord st).total_sleep_secs = st.day_data.total_sleep_secs ∧
      (mkRecord st).date = dayKey st.current_day ∧
      storeLookup st'.writes (dayKey st.current_day) = some (mkRecord st)) ∧
    (∀ a, (end_sleep true now today st).2 = Except.ok a →
      get_sleep_accumulated (end_sleep true now today st).1 now = a.total_sleep_seconds ∧
      ∀ p ∈ (end_sleep true now today st).1.writes,
        p ∈ st.writes ∨
          (p.2.total_sleep_secs = a.total_sleep_seconds ∧ p.1 = dayKey st.current_day)) := by
  constructor
  · intro st' h hne
    rcases summarize_cases w st st' h with ⟨hs, rfl⟩ | ⟨_, _, rfl⟩
    · exact absurd hs hne
    · exact ⟨rfl, rfl, rfl, storeLookup_append_last st.writes (dayKey st.current_day) (mkRecord st)⟩
  · intro a ha
    cases hsum : summarize_day true (mid_state now st) with
    | error e =>
      obtain ⟨u, hu⟩ := summarize_true_isOk (mid_state now st)
      rw [hu] at hsum
      exact Except.noConfusion hsum
    | ok st3 =>
      have hend1 : (end_sleep true now today st).1 =
          { day_reset today st3 with
            sleep_active := false, sleep_paused := false, sleep_ended := true } := by
        simp [end_sleep, hsum]
      have hend2 : (end_sleep true now today st).2 =
          Except.ok { status := "sleep ended",
                      total_sleep_seconds := (mid_state now st).sleep_accumulated,
                      total_sleep_hours := (mid_state now st).sleep_accumulated / 3600 } := by
        simp [end_sleep, hsum]
      rw [hend2] at ha
      cases ha
      constructor
      · rw [hend1]
        have h3 : st3.sleep_accumulated = (mid_state now st).sleep_accumulated := by
          rcases summarize_cases true (mid_state now st) st3 hsum with ⟨_, rfl⟩ | ⟨_, _, rfl⟩ <;> rfl
        simp [get_sleep_accumulated, day_reset, h3]
      · intro p hp
        rw [hend1] at hp
        have hp' : p ∈ st3.writes := hp
        rcases summarize_cases true (mid_state now st) st3 hsum with ⟨_, rfl⟩ | ⟨_, _, rfl⟩
        · left
          rwa [(mid_state_frame now st).1] at hp'
        · have hp2 : p ∈ (mid_state now st).writes
              ++ [(dayKey (mid_state now st).current_day, mkRecord (mid_state now st))] := hp'
          rcases List.mem_append.mp hp2 with hl | hr
          · left
            rwa [(mid_state_frame now st).1] at hl
          · right
            have hpe : p = (dayKey (mid_state now st).current_day,
                mkRecord (mid_state now st)) := by simpa using hr
            subst hpe
            constructor
            · exact (mid_state_frame now st).2.2.2.2
            · show dayKey (mid_state now st).current_day = dayKey st.current_day
              rw [(mid_state_frame now st).2.1]

/-- C6 (witness for the amended theorem): concrete instance of the
materialize branch — the record written from the one-sample state lands in
the store under the current date key and is what a reader sees. -/
theorem materialize_record_provenance_witness :
    storeLookup (hourly_step true "D" activeSampledState).writes
        (dayKey activeSampledState.current_day)
      = some (mkRecord activeSampledState) := by
  have hne : activeSampledState.day_data.samples ≠ [] := by
    have hs : activeSampledState.day_data.samples = [10] := by
      norm_num [activeSampledState, run, step, start_sleep, process_sample, initState,
        initDayData, get_sleep_accumulated, sampleA]
    rw [hs]
    exact List.cons_ne_nil 10 []
  have hsum : summarize_day true activeSampledState
      = Except.ok (hourly_step true "D" activeSampledState) := by
    obtain ⟨u, hu⟩ := summarize_true_isOk activeSampledState
    rw [hu]
    simp [hourly_step, hu]
  exact (((materialize_record_provenance true activeSampledState 0 "D").1
    (hourly_step true "D" activeSampledState) hsum hne)).2.2.2

/-! ## C4: the concrete session scenario -/

/-- C4 (confirmed): in the scenario — start at t = 0, three accepted samples
with breath rates 10, 12 and 14, pause at t = 60, end at t = 60 — the single
record materialized into the store is keyed by the session's date and has
average breath rate 12.00, minimum 10.00, maximum 14.00 and total sleep
seconds 60.0. -/
theorem scenario_summary :
    (scenarioState.writes.map fun p =>
        (p.1, p.2.avg_breath_rate, p.2.min_breath_rate, p.2.max_breath_rate,
          p.2.total_sleep_secs))
      = [("2026-01-02", 12, 10, 14, 60)] := by
  have hmid : (mid_state 60 scenarioPreEnd).day_data.samples = [10, 12, 14] ∧
      (mid_state 60 scenarioPreEnd).day_data.total_sleep_secs = 60 ∧
      (mid_state 60 scenarioPreEnd).writes = [] ∧
      (mid_state 60 scenarioPreEnd).current_day = some "2026-01-02" := by
    norm_num [scenarioPreEnd, run, step, start_sleep, process_sample, pause_sleep,
      mid_state, finalize_timer, initState, initDayData, get_sleep_accumulated,
      sampleA, sampleB, sampleC]
  obtain ⟨hsamp, htot, hw, hday⟩ := hmid
  have hne : (mid_state 60 scenarioPreEnd).day_data.samples ≠ [] := by
    rw [hsamp]
    exact List.cons_ne_nil _ _
  have hsum : summarize_day true (mid_state 60 scenarioPreEnd)
      = Except.ok { mid_state 60 scenarioPreEnd with
          writes := (mid_state 60 scenarioPreEnd).writes
            ++ [(dayKey (mid_state 60 scenarioPreEnd).current_day,
                mkRecord (mid_state 60 scenarioPreEnd))] } := by
    simp [summarize_day, hne]
  have hstep : scenarioState = (end_sleep true 60 "2026-01-02" scenarioPreEnd).1 := rfl
  rw [hstep]
  simp only [end_sleep, hsum]
  simp [day_reset, hw, hday, dayKey, mkRecord, hsamp, htot]
  norm_num [qmean, qmin, qmax, pyRound2, pyRoundQ, min_def, max_def]

/-! ## C1: elapsed after end vs. Active wall-clock duration -/

/-- After a session end with a succeeding store, `elapsed()` reads the
finalized accumulated total, whatever `now` is. -/
theorem end_elapsed_true (tn now : ℚ) (day : String) (st : SysState) :
    get_sleep_accumulated ((end_sleep true tn day st).1) now
      = (finalize_timer tn st).sleep_accumulated := by
  cases hsum : summarize_day true (mid_state tn st) with
  | error e =>
    obtain ⟨u, hu⟩ := summarize_true_isOk (mid_state tn st)
    rw [hu] at hsum
    exact Except.noConfusion hsum
  | ok st3 =>
    have h3 : st3.sleep_accumulated = (mid_state tn st).sleep_accumulated := by
      rcases summarize_cases true (mid_state tn st) st3 hsum with ⟨_, rfl⟩ | ⟨_, _, rfl⟩ <;> rfl
    have hfin : (end_sleep true tn day st).1 =
        { day_reset day st3 with
          sleep_active := false, sleep_paused := false, sleep_ended := true } := by
      simp [end_sleep, hsum]
    rw [hfin]
    simp only [get_sleep_accumulated, day_reset]
    rw [show ({ st3 with
        current_day := some day, day_data := initDayData, sleep_active := false,
        sleep_paused := false, sleep_ended := true } : SysState).sleep_accumulated
      = st3.sleep_accumulated from rfl] at *
    simp [h3]
    rfl

/-- One mid-session pause/resume call preserves the timing invariant and
advances the elapsed reading by exactly the Active duration of the elapsed
interval, provided resumes only happen while Paused. -/
theorem applyT_props (st : SysState) (tprev t : ℚ) (e : TEv)
    (hact : st.sleep_active = true) (hend : st.sleep_ended = false)
    (hp : st.sleep_paused = true → st.sleep_start_time = none)
    (hnp : st.sleep_paused = false → ∃ s, st.sleep_start_time = some s)
    (hres : e = TEv.tresume → st.sleep_paused = true) :
    (applyT st (e, t)).sleep_active = true ∧
    (applyT st (e, t)).sleep_ended = false ∧
    ((applyT st (e, t)).sleep_paused = true → (applyT st (e, t)).sleep_start_time = none) ∧
    ((applyT st (e, t)).sleep_paused = false → ∃ s, (applyT st (e, t)).sleep_start_time = some s) ∧
    get_sleep_accumulated (applyT st (e, t)) t
      = get_sleep_accumulated st tprev + (if isActive st then t - tprev else 0) := by
  cases e with
  | tpause =>
    by_cases hpp : st.sleep_paused = true
    · have hs := hp hpp
      simp [applyT, pause_sleep, get_sleep_accumulated, isActive, hpp, hs, hact, hend]
    · rw [Bool.not_eq_true] at hpp
      obtain ⟨s, hs⟩ := hnp hpp
      simp [applyT, pause_sleep, get_sleep_accumulated, isActive, hpp, hs, hact, hend]
      ring
  | tresume =>
    have hpp := hres rfl
    have hs := hp hpp
    simp [applyT, resume_sleep, get_sleep_accumulated, isActive, hpp, hs, hact, hend]

/-- In any state satisfying the timing invariant, `elapsed()` right after
`end_sleep` equals the elapsed reading at the previous instant plus the
Active wall-clock duration through the remaining pause/resume calls, as long
as every resume happens while Paused. -/
theorem end_elapsed_general (mid : List (TEv × ℚ)) :
    ∀ (st : SysState) (tprev tn now : ℚ) (day : String),
      st.sleep_active = true → st.sleep_ended = false →
      (st.sleep_paused = true → st.sleep_start_time = none) →
      (st.sleep_paused = false → ∃ s, st.sleep_start_time = some s) →
      resumesOnlyWhenPaused st mid = true →
      get_sleep_accumulated ((end_sleep true tn day (runT st mid)).1) now
        = get_sleep_accumulated st tprev + activeDurTo st tprev mid tn := by
  induction mid with
  | nil =>
    intro st tprev tn now day hact hend hp hnp _
    have hrt : runT st [] = st := rfl
    rw [hrt, end_elapsed_true]
    by_cases hpp : st.sleep_paused = true
    · have hs := hp hpp
      simp [finalize_timer, get_sleep_accumulated, activeDurTo, isActive, hpp, hs, hact, hend]
    · rw [Bool.not_eq_true] at hpp
      obtain ⟨s, hs⟩ := hnp hpp
      simp [finalize_timer, get_sleep_accumulated, activeDurTo, isActive, hpp, hs, hact, hend]
      ring
  | cons et rest ih =>
    obtain ⟨e, t⟩ := et
    intro st tprev tn now day hact hend hp hnp hres
    have hres2 : resumesOnlyWhenPaused st ((e, t) :: rest)
        = ((e != TEv.tresume || st.sleep_paused)
            && resumesOnlyWhenPaused (applyT st (e, t)) rest) := rfl
    rw [hres2, Bool.and_eq_true] at hres
    obtain ⟨h1, h2⟩ := hres
    have hres' : e = TEv.tresume → st.sleep_paused = true := by
      intro he
      subst he
      simpa using h1
    obtain ⟨ha', he', hp', hnp', heq⟩ := applyT_props st tprev t e hact hend hp hnp hres'
    have hrt : runT st ((e, t) :: rest) = runT (applyT st (e, t)) rest := rfl
    have hdur : activeDurTo st tprev ((e, t) :: rest) tn
        = (if isActive st then t - tprev else 0)
            + activeDurTo (applyT st (e, t)) t rest tn := rfl
    rw [hrt, ih (applyT st (e, t)) t tn now day ha' he' hp' hnp' h2, heq, hdur]
    ring

/-- C1 (counterexample): a redundant resume issued while already Active
discards the open interval. In the trace start at t = 0, resume at t = 10,
end at t = 20 — with monotone instants and the session Active throughout —
`elapsed()` after the end reads 10, while the Active wall-clock duration of
the session is 20. -/
theorem redundant_resume_undercounts :
    timesMonoTo 0 [(TEv.tresume, 10)] 20 = true ∧
    get_sleep_accumulated
        ((end_sleep true 20 "D" (runT (start_sleep 0 "D" initState) [(TEv.tresume, 10)])).1) 20
      = 10 ∧
    activeDurTo (start_sleep 0 "D" initState) 0 [(TEv.tresume, 10)] 20 = 20 ∧
    (10 : ℚ) ≠ 20 := by
  refine ⟨by norm_num [timesMonoTo], ?_, ?_, by norm_num⟩
  · norm_num [runT, applyT, start_sleep, resume_sleep, end_sleep, mid_state,
      finalize_timer, summarize_day, day_reset, initState, initDayData,
      get_sleep_accumulated]
  · norm_num [activeDurTo, applyT, start_sleep, resume_sleep, isActive,
      initState, initDayData]

/-- C1 (amended): for every finite trace — start first, then any number of
pause/resume calls at monotone wall-clock instants in which each resume is
issued while the session is Paused, then end — `elapsed()` immediately after
the end transition equals the sum of the wall-clock durations of all
intervals during which the session was Active, regardless of how many
pause/resume cycles occurred. (A resume issued while already Active instead
restarts `start_time` and silently drops the open interval — see the
counterexample — so such redundant resumes must be excluded.) -/
theorem elapsed_equals_active_duration (t0 tn now : ℚ) (day : String)
    (mid : List (TEv × ℚ))
    (hmono : timesMonoTo t0 mid tn = true)
    (hres : resumesOnlyWhenPaused (start_sleep t0 day initState) mid = true) :
    get_sleep_accumulated
        ((end_sleep true tn day (runT (start_sleep t0 day initState) mid)).1) now
      = activeDurTo (start_sleep t0 day initState) t0 mid tn := by
  have h := end_elapsed_general mid (start_sleep t0 day initState) t0 tn now day rfl rfl
    (by intro hc; simp [start_sleep] at hc)
    (fun _ => ⟨t0, rfl⟩) hres
  rw [h]
  have hz : get_sleep_accumulated (start_sleep t0 day initState) t0 = 0 := by
    simp [get_sleep_accumulated, start_sleep, initState]
  rw [hz, zero_add]

/-- C1 (witness for the amended theorem): the trace start at 0, pause at 10,
resume at 15, end at 20 satisfies the hypotheses, and its elapsed total after
end equals its Active duration (both are 15). -/
theorem elapsed_equals_active_duration_witness :
    get_sleep_accumulated
        ((end_sleep true 20 "D" (runT (start_sleep 0 "D" initState)
          [(TEv.tpause, 10), (TEv.tresume, 15)])).1) 99
      = activeDurTo (start_sleep 0 "D" initState) 0 [(TEv.tpause, 10), (TEv.tresume, 15)] 20 :=
  elapsed_equals_active_duration 0 20 99 "D" [(TEv.tpause, 10), (TEv.tresume, 15)]
    (by norm_num [timesMonoTo])
    (by
      norm_num [resumesOnlyWhenPaused, applyT, pause_sleep, resume_sleep,
        start_sleep, initState, initDayData]
      decide)
